import Mathlib

/-!
Verification of the partition command core of zhmccli (`zhmccli/_cmd_partition.py`).

The development shallowly embeds the parts of the module that the claims
concern:

* the capacity enrichment of `cmd_partition_list` (the three passes over the
  partition list computing `ifl-capacity`, `cp-capacity`, `processor-usage`
  and `processors-used`), with Python float arithmetic modelled over `ℚ` and
  Python runtime errors (`ZeroDivisionError` on float division by an int zero,
  `TypeError` on `None + float`) modelled with `Except`;
* the boot-configuration resolution of `cmd_partition_create` and
  `cmd_partition_update`, including the incomplete-group errors and the
  HBA/NIC lookups (given as abstract name-to-URI finder functions);
* the `ssc-dns-servers` comma splitting, the `ifl-processors` default of
  `cmd_partition_create`, the empty-property-set no-op of
  `cmd_partition_update`, and `cmd_partition_unmount_iso`.

Property sets are association lists with Python-dict insert-or-replace
semantics.  Option values are `Option`-valued (Python `None` = `none`);
Python truthiness of an optional string is `truthy`.
-/

namespace Zhmccli

/-- A value stored in a REST property set: a string, an integer, or a list of
strings (the shapes used by the partition commands). -/
inductive PropVal where
  | str (s : String)
  | int (n : Int)
  | strList (l : List String)
  deriving DecidableEq, Repr

/-- A property set, modelling the Python `properties` dict as an association
list with unique keys maintained by `setProp`. -/
abbrev PropSet := List (String × PropVal)

/-- Lookup of a key in a property set (Python `properties[k]` /
`properties.get(k)`). -/
def getProp (ps : PropSet) (k : String) : Option PropVal :=
  match ps with
  | [] => none
  | (k1, v) :: rest => if k1 = k then some v else getProp rest k

/-- Key membership in a property set (Python `k in properties`). -/
def hasProp (ps : PropSet) (k : String) : Bool :=
  match ps with
  | [] => false
  | (k1, _) :: rest => if k1 = k then true else hasProp rest k

/-- Insert-or-replace of a key (Python `properties[k] = v`). -/
def setProp (ps : PropSet) (k : String) (v : PropVal) : PropSet :=
  ps.filter (fun e => e.1 != k) ++ [(k, v)]

/-- Apply a sequence of dict assignments `base[k] = v` for the entries of
`overlay`, in order. -/
def mergeProps (base : PropSet) (overlay : PropSet) : PropSet :=
  overlay.foldl (fun ps e => setProp ps e.1 e.2) base

/-- Python truthiness of an optional string: `None` and `""` are falsy. -/
def truthy : Option String → Bool
  | none => false
  | some s => !s.isEmpty

/-- Python `s.split(',')`: split at every comma; the empty string yields
`[""]`. -/
def splitComma (s : String) : List String :=
  s.toList.foldr
    (fun c acc =>
      match acc with
      | [] => [String.mk [c]]
      | cur :: rest =>
        if c = ',' then ("") :: cur :: rest
        else String.mk (c :: cur.toList) :: rest)
    [("")]

/-! ## Capacity estimator (`cmd_partition_list`, `--ifl-usage`/`--cp-usage`) -/

/-- The partition properties read by the capacity enrichment, as pulled from
the server property bag. -/
structure PartitionProps where
  name : String
  status : String
  processor_mode : String
  ifl_processors : Int
  cp_processors : Int
  initial_ifl_processing_weight : Int
  initial_cp_processing_weight : Int
  deriving DecidableEq, Repr

/-- The CPC properties read by the capacity enrichment. -/
structure CpcProps where
  processor_count_ifl : Int
  processor_count_general_purpose : Int
  deriving DecidableEq, Repr

/-- Sum of `initial-ifl-processing-weight` over the partitions that are in
`shared` processor mode and `active` status (first loop of the IFL pass). -/
def total_ifl_weight (partitions : List PartitionProps) : Int :=
  partitions.foldl
    (fun acc p =>
      if p.processor_mode = "shared" ∧ p.status = "active" then
        acc + p.initial_ifl_processing_weight
      else acc) 0

/-- Sum of `initial-cp-processing-weight` over the partitions that are in
`shared` processor mode and `active` status (first loop of the CP pass). -/
def total_cp_weight (partitions : List PartitionProps) : Int :=
  partitions.foldl
    (fun acc p =>
      if p.processor_mode = "shared" ∧ p.status = "active" then
        acc + p.initial_cp_processing_weight
      else acc) 0

/-- The `ifls_eff` computation of the IFL pass for one partition.  Python
raises `ZeroDivisionError` when the weight sum is zero, modelled as an
`Except.error`. -/
def ifls_eff (total_ifls tIw : Int) (p : PartitionProps) : Except String (Option ℚ) :=
  if p.status ≠ "active" then .ok none
  else if p.processor_mode = "shared" then
    if tIw = 0 then .error ("ZeroDivisionError")
    else .ok (some ((total_ifls : ℚ) * (p.initial_ifl_processing_weight : ℚ) / (tIw : ℚ)))
  else .ok (some ((p.ifl_processors : ℚ)))

/-- The `cps_eff` computation of the CP pass for one partition. -/
def cps_eff (total_cps tCw : Int) (p : PartitionProps) : Except String (Option ℚ) :=
  if p.status ≠ "active" then .ok none
  else if p.processor_mode = "shared" then
    if tCw = 0 then .error ("ZeroDivisionError")
    else .ok (some ((total_cps : ℚ) * (p.initial_cp_processing_weight : ℚ) / (tCw : ℚ)))
  else .ok (some ((p.cp_processors : ℚ)))

/-- Partition record after the IFL pass: the original properties plus the
`ifl-capacity`, `ifls` and `ifl-weight` entries the pass stores. -/
structure Stage1 where
  p : PartitionProps
  ifl_capacity : Option ℚ
  ifls : Int
  ifl_weight : Int
  deriving DecidableEq, Repr

/-- Partition record after the CP pass: adds `cp-capacity`, `cps` and
`cp-weight`. -/
structure Stage2 extends Stage1 where
  cp_capacity : Option ℚ
  cps : Int
  cp_weight : Int
  deriving DecidableEq, Repr

/-- Partition record after the metrics pass: adds `processor-usage` and
`processors-used`. -/
structure EnrichedPartition extends Stage2 where
  processor_usage : Option ℚ
  processors_used : Option ℚ
  deriving DecidableEq, Repr

/-- Body of the second loop of the IFL pass for one partition. -/
def iflPass (total_ifls tIw : Int) (p : PartitionProps) : Except String Stage1 :=
  match ifls_eff total_ifls tIw p with
  | .error e => .error e
  | .ok c => .ok ⟨p, c, p.ifl_processors, p.initial_ifl_processing_weight⟩

/-- Body of the second loop of the CP pass for one partition. -/
def cpPass (total_cps tCw : Int) (s : Stage1) : Except String Stage2 :=
  match cps_eff total_cps tCw s.p with
  | .error e => .error e
  | .ok c => .ok ⟨s, c, s.p.cp_processors, s.p.initial_cp_processing_weight⟩

/-- Body of the metrics loop for one partition: with a usage sample, Python
computes `ifl-capacity + cp-capacity` (a `TypeError` if either is `None`) and
`usage / 100 * procs_eff`; without a sample both result fields are `None`. -/
def usagePass (metrics : String → Option ℚ) (s : Stage2) : Except String EnrichedPartition :=
  match metrics s.p.name with
  | some usage =>
    match s.ifl_capacity, s.cp_capacity with
    | some a, some b => .ok ⟨s, some usage, some (usage / 100 * (a + b))⟩
    | _, _ => .error ("TypeError")
  | none => .ok ⟨s, none, none⟩

/-- A Python `for` loop over a list whose body may raise: stops at the first
raised error. -/
def mapExcept (f : α → Except String β) : List α → Except String (List β)
  | [] => .ok []
  | a :: l =>
    match f a with
    | .error e => .error e
    | .ok b =>
      match mapExcept f l with
      | .error e => .error e
      | .ok bs => .ok (b :: bs)

/-- The capacity enrichment of `cmd_partition_list` under `--ifl-usage` or
`--cp-usage`: the IFL pass over all partitions, then the CP pass, then the
metrics pass, each pass completing over the whole list before the next
starts.  `metrics` maps a partition name to its `processor-usage` metric
sample, `none` when the partition has no sample. -/
def cmd_partition_list_enrich (cpc : CpcProps) (partitions : List PartitionProps)
    (metrics : String → Option ℚ) : Except String (List EnrichedPartition) :=
  match mapExcept (iflPass cpc.processor_count_ifl (total_ifl_weight partitions)) partitions with
  | .error e => .error e
  | .ok s1 =>
    match mapExcept (cpPass cpc.processor_count_general_purpose (total_cp_weight partitions)) s1 with
    | .error e => .error e
    | .ok s2 => mapExcept (usagePass metrics) s2

/-! ## Boot-configuration resolution (`cmd_partition_update`) -/

/-- The update options handled specially by `cmd_partition_update` (the
`name_map` excludes them from the generic option-to-property mapping). -/
structure UpdateOptions where
  boot_storage_hba : Option String := none
  boot_storage_lun : Option String := none
  boot_storage_wwpn : Option String := none
  boot_network_nic : Option String := none
  boot_ftp_host : Option String := none
  boot_ftp_username : Option String := none
  boot_ftp_password : Option String := none
  boot_ftp_insfile : Option String := none
  boot_media_file : Option String := none
  boot_iso : Option String := none
  ssc_dns_servers : Option String := none
  deriving DecidableEq, Repr

/-- `required_storage_option_names` with the corresponding option values. -/
def required_storage_options (o : UpdateOptions) : List (String × Option String) :=
  [("boot-storage-hba", o.boot_storage_hba),
   ("boot-storage-lun", o.boot_storage_lun),
   ("boot-storage-wwpn", o.boot_storage_wwpn)]

/-- `required_ftp_option_names` of the update command with the corresponding
option values. -/
def required_ftp_options_update (o : UpdateOptions) : List (String × Option String) :=
  [("boot-ftp-host", o.boot_ftp_host),
   ("boot-ftp-username", o.boot_ftp_username),
   ("boot-ftp-password", o.boot_ftp_password),
   ("boot-ftp-insfile", o.boot_ftp_insfile)]

/-- The names, in tuple order, of the required members of a group whose
option value is `None` (Python `[name for name in ... if options[name] is None]`). -/
def missing_option_names (pairs : List (String × Option String)) : List String :=
  (pairs.filter (fun e => e.2.isNone)).map Prod.fst

/-- Python `any([options[name] for name in required_storage_option_names])`:
some member is supplied with a truthy value. -/
def storageSupplied (o : UpdateOptions) : Bool :=
  (required_storage_options o).any (fun e => truthy e.2)

/-- The missing members of the FCP storage group. -/
def storageMissing (o : UpdateOptions) : List String :=
  missing_option_names (required_storage_options o)

/-- Python `any(...)` over the FTP group of the update command. -/
def ftpSuppliedUpdate (o : UpdateOptions) : Bool :=
  (required_ftp_options_update o).any (fun e => truthy e.2)

/-- The missing members of the FTP group of the update command. -/
def ftpMissingUpdate (o : UpdateOptions) : List String :=
  missing_option_names (required_ftp_options_update o)

/-- The user-input error message for an incomplete FCP storage boot group. -/
def missingStorageMsg (missing : List String) : String :=
  ("Boot from FCP LUN specified, but misses the following options: ") ++
    String.intercalate (", ") missing

/-- The user-input error message for an incomplete FTP boot group. -/
def missingFtpMsg (missing : List String) : String :=
  ("Boot from FTP server specified, but misses the following options: ") ++
    String.intercalate (", ") missing

/-- The user-input error message for an HBA name not found in the partition. -/
def hbaNotFoundMsg (h p c : String) : String :=
  ("Could not find HBA ") ++ h ++ (" in partition ") ++ p ++ (" in CPC ") ++ c ++ (".")

/-- The user-input error message for a NIC name not found in the partition. -/
def nicNotFoundMsg (n p c : String) : String :=
  ("Could not find NIC ") ++ n ++ (" in partition ") ++ p ++ (" in CPC ") ++ c ++ (".")

/-- The boot-option `if`/`elif` chain of `cmd_partition_update`, producing the
boot property overlay added to the property dict.  `hbaFind`/`nicFind` model
`partition.hbas.find`/`partition.nics.find`, mapping an adapter name to its
URI when found.  An `Except.error` models `raise_click_exception`: the command
aborts and no update request is issued. -/
def resolveUpdateBoot (hbaFind nicFind : String → Option String)
    (cpc_name partition_name : String) (o : UpdateOptions) : Except String PropSet :=
  if storageSupplied o then
    if storageMissing o ≠ [] then .error (missingStorageMsg (storageMissing o))
    else
      match hbaFind (o.boot_storage_hba.getD ("")) with
      | none => .error (hbaNotFoundMsg (o.boot_storage_hba.getD ("")) partition_name cpc_name)
      | some uri =>
        .ok [(("boot-device"), PropVal.str ("storage-adapter")),
             (("boot-storage-device"), PropVal.str uri),
             (("boot-logical-unit-number"), PropVal.str (o.boot_storage_lun.getD (""))),
             (("boot-world-wide-port-name"), PropVal.str (o.boot_storage_wwpn.getD ("")))]
  else if o.boot_network_nic.isSome then
    match nicFind (o.boot_network_nic.getD ("")) with
    | none => .error (nicNotFoundMsg (o.boot_network_nic.getD ("")) partition_name cpc_name)
    | some uri =>
      .ok [(("boot-device"), PropVal.str ("network-adapter")),
           (("boot-network-device"), PropVal.str uri)]
  else if ftpSuppliedUpdate o then
    if ftpMissingUpdate o ≠ [] then .error (missingFtpMsg (ftpMissingUpdate o))
    else
      .ok [(("boot-device"), PropVal.str ("ftp")),
           (("boot-ftp-host"), PropVal.str (o.boot_ftp_host.getD (""))),
           (("boot-ftp-username"), PropVal.str (o.boot_ftp_username.getD (""))),
           (("boot-ftp-password"), PropVal.str (o.boot_ftp_password.getD (""))),
           (("boot-ftp-insfile"), PropVal.str (o.boot_ftp_insfile.getD ("")))]
  else if o.boot_media_file.isSome then
    .ok [(("boot-device"), PropVal.str ("removable-media")),
         (("boot-removable-media"), PropVal.str (o.boot_media_file.getD ("")))]
  else if o.boot_iso.isSome then
    .ok [(("boot-device"), PropVal.str ("iso-image"))]
  else .ok []

/-- The `ssc-dns-servers` transform shared by create and update: when the
option is supplied, its comma-separated value replaces the property with the
split list. -/
def applyDnsSplit (dns : Option String) (ps : PropSet) : PropSet :=
  match dns with
  | some s => setProp ps ("ssc-dns-servers") (PropVal.strList (splitComma s))
  | none => ps

/-- The full property set built by `cmd_partition_update` before the final
emptiness check: the generically mapped properties `genProps`, then the boot
overlay, then the DNS-server split. -/
def resolvedUpdateProps (hbaFind nicFind : String → Option String)
    (cpc_name partition_name : String) (genProps : PropSet) (o : UpdateOptions) :
    Except String PropSet :=
  match resolveUpdateBoot hbaFind nicFind cpc_name partition_name o with
  | .error m => .error m
  | .ok overlay => .ok (applyDnsSplit o.ssc_dns_servers (mergeProps genProps overlay))

/-- Message echoed when the update command has no properties to update. -/
def noPropsMsg (partition_name : String) : String :=
  ("No properties specified for updating partition ") ++ partition_name ++ (".")

/-- Message echoed after a successful update without rename. -/
def updatedMsg (partition_name : String) : String :=
  ("Partition ") ++ partition_name ++ (" has been updated.")

/-- Message echoed after a successful update that renamed the partition. -/
def renamedMsg (partition_name new_name : String) : String :=
  ("Partition ") ++ partition_name ++ (" has been renamed to ") ++ new_name ++
    (" and was updated.")

/-- Outcome of `cmd_partition_update`: `err` models `raise_click_exception`
before any request is issued; `noop` models the early return that issues no
update request; `updated props msg` models a single
`partition.update_properties(props)` request followed by the echoed message. -/
inductive UpdateOutcome where
  | err (msg : String)
  | noop (msg : String)
  | updated (props : PropSet) (msg : String)
  deriving DecidableEq, Repr

/-- `cmd_partition_update`: build the property set; if it is empty report the
no-op; else issue the update and echo the (renamed) message. -/
def cmd_partition_update (hbaFind nicFind : String → Option String)
    (cpc_name partition_name : String) (genProps : PropSet) (o : UpdateOptions) :
    UpdateOutcome :=
  match resolvedUpdateProps hbaFind nicFind cpc_name partition_name genProps o with
  | .error m => .err m
  | .ok props =>
    if props = [] then .noop (noPropsMsg partition_name)
    else
      match getProp props ("name") with
      | some (PropVal.str n) =>
        if n ≠ partition_name then .updated props (renamedMsg partition_name n)
        else .updated props (updatedMsg partition_name)
      | some _ => .updated props (updatedMsg partition_name)
      | none => .updated props (updatedMsg partition_name)

/-! ## Partition creation (`cmd_partition_create`) -/

/-- The create options handled specially by `cmd_partition_create`
(`boot-ftp-*` and `boot-media-file` are excluded from the generic mapping;
`ifl-processors`, `cp-processors` and `ssc-dns-servers` are generically
mapped and also inspected by the function), plus `others`: the properties the
generic mapper produces for all remaining supplied options. -/
structure CreateOptions where
  ifl_processors : Option Int := none
  cp_processors : Option Int := none
  boot_ftp_host : Option String := none
  boot_ftp_username : Option String := none
  boot_ftp_password : Option String := none
  boot_ftp_insfile : Option String := none
  boot_media_file : Option String := none
  ssc_dns_servers : Option String := none
  others : PropSet := []
  deriving DecidableEq, Repr

/-- Set the raw `ssc-dns-servers` property when the option is supplied (the
generic mapping of the option, before the split transform replaces it). -/
def applyOptDnsRaw (v : Option String) (ps : PropSet) : PropSet :=
  match v with
  | some s => setProp ps ("ssc-dns-servers") (PropVal.str s)
  | none => ps

/-- Set the `cp-processors` property when the option is supplied. -/
def applyOptCp (v : Option Int) (ps : PropSet) : PropSet :=
  match v with
  | some n => setProp ps ("cp-processors") (PropVal.int n)
  | none => ps

/-- Set the `ifl-processors` property when the option is supplied. -/
def applyOptIfl (v : Option Int) (ps : PropSet) : PropSet :=
  match v with
  | some n => setProp ps ("ifl-processors") (PropVal.int n)
  | none => ps

/-- Modelled from the spec: `options_to_properties` (the Property Mapper of
§4.1, defined in `_helper.py` which is not among the sources) emits one
property per option that is present and not excluded by the name map, with
the hyphenated option name as property name.  Here: the `ifl-processors`,
`cp-processors` and `ssc-dns-servers` entries for the explicitly modelled
options (when supplied), merged over `others`, the mapper output for the
remaining options. -/
def createMappedProps (o : CreateOptions) : PropSet :=
  applyOptIfl o.ifl_processors (applyOptCp o.cp_processors (applyOptDnsRaw o.ssc_dns_servers o.others))

/-- `required_ftp_option_names` of the create command with the corresponding
option values. -/
def required_ftp_options_create (o : CreateOptions) : List (String × Option String) :=
  [("boot-ftp-host", o.boot_ftp_host),
   ("boot-ftp-username", o.boot_ftp_username),
   ("boot-ftp-password", o.boot_ftp_password),
   ("boot-ftp-insfile", o.boot_ftp_insfile)]

/-- Python `any(...)` over the FTP group of the create command. -/
def ftpSuppliedCreate (o : CreateOptions) : Bool :=
  (required_ftp_options_create o).any (fun e => truthy e.2)

/-- The missing members of the FTP group of the create command. -/
def ftpMissingCreate (o : CreateOptions) : List String :=
  missing_option_names (required_ftp_options_create o)

/-- The boot-option `if`/`elif` chain of `cmd_partition_create`, applied to
the generically mapped properties. -/
def createBootProps (o : CreateOptions) : Except String PropSet :=
  if ftpSuppliedCreate o then
    if ftpMissingCreate o ≠ [] then .error (missingFtpMsg (ftpMissingCreate o))
    else .ok (mergeProps (createMappedProps o)
      [(("boot-device"), PropVal.str ("ftp")),
       (("boot-ftp-host"), PropVal.str (o.boot_ftp_host.getD (""))),
       (("boot-ftp-username"), PropVal.str (o.boot_ftp_username.getD (""))),
       (("boot-ftp-password"), PropVal.str (o.boot_ftp_password.getD (""))),
       (("boot-ftp-insfile"), PropVal.str (o.boot_ftp_insfile.getD ("")))])
  else if o.boot_media_file.isSome then
    .ok (mergeProps (createMappedProps o)
      [(("boot-device"), PropVal.str ("removable-media")),
       (("boot-removable-media"), PropVal.str (o.boot_media_file.getD ("")))])
  else .ok (createMappedProps o)

/-- Source constant `DEFAULT_IFL_PROCESSORS`. -/
def DEFAULT_IFL_PROCESSORS : Int := 1

/-- The processor default of `cmd_partition_create`: when neither
`ifl-processors` nor `cp-processors` is in the property set, insert
`ifl-processors = DEFAULT_IFL_PROCESSORS`. -/
def createDefaultIfl (ps : PropSet) : PropSet :=
  if hasProp ps ("ifl-processors") = false ∧ hasProp ps ("cp-processors") = false then
    setProp ps ("ifl-processors") (PropVal.int DEFAULT_IFL_PROCESSORS)
  else ps

/-- `cmd_partition_create`: boot-group resolution, processor default, DNS
split; `.ok props` models `cpc.partitions.create(props)` being issued with
exactly `props`; `.error` models `raise_click_exception` with no create
request issued. -/
def cmd_partition_create (o : CreateOptions) : Except String PropSet :=
  match createBootProps o with
  | .error m => .error m
  | .ok ps => .ok (applyDnsSplit o.ssc_dns_servers (createDefaultIfl ps))

/-! ## Unmount ISO (`cmd_partition_unmount_iso`) -/

/-- An operation issued to the management client by the unmount command. -/
inductive PartOp where
  | updateProps (ps : PropSet)
  | unmountIsoImage
  deriving DecidableEq, Repr

/-- Message echoed after a successful unmount. -/
def unmountedMsg (image partition_name : String) : String :=
  ("ISO image ") ++ image ++ (" has been unmounted from Partition ") ++ partition_name ++ (".")

/-- Message echoed when no ISO image is mounted (a success result, not an
error). -/
def noIsoMsg (partition_name : String) : String :=
  ("No ISO image is mounted to Partition ") ++ partition_name ++ (".")

/-- `cmd_partition_unmount_iso`, as a function of the pulled
`boot-iso-image-name` and `boot-device` properties: returns the list of
operations issued to the management client, in order, and the echoed
message. -/
def cmd_partition_unmount_iso (partition_name : String) (boot_iso_image_name : Option String)
    (boot_device : String) : List PartOp × String :=
  if truthy boot_iso_image_name then
    (if boot_device = "iso-image" then
       [PartOp.updateProps [(("boot-device"), PropVal.str ("none"))], PartOp.unmountIsoImage]
     else [PartOp.unmountIsoImage],
     unmountedMsg (boot_iso_image_name.getD ("")) partition_name)
  else ([], noIsoMsg partition_name)

/-! ## Lemmas: list passes -/

theorem mapExcept_forall2 (f : α → Except String β) :
    ∀ {l : List α} {res : List β}, mapExcept f l = .ok res →
      List.Forall₂ (fun a b => f a = .ok b) l res := by
  intro l
  induction l with
  | nil =>
    intro res h
    simp [mapExcept] at h
    subst h
    exact List.Forall₂.nil
  | cons a l ih =>
    intro res h
    simp only [mapExcept] at h
    cases hfa : f a with
    | error e => rw [hfa] at h; simp at h
    | ok b =>
      rw [hfa] at h
      cases hrec : mapExcept f l with
      | error e => rw [hrec] at h; simp at h
      | ok bs =>
        rw [hrec] at h
        simp at h
        subst h
        exact List.Forall₂.cons hfa (ih hrec)

theorem forall2_comp {R : α → β → Prop} {S : β → γ → Prop} :
    ∀ {l1 : List α} {l2 : List β} {l3 : List γ}, List.Forall₂ R l1 l2 → List.Forall₂ S l2 l3 →
      List.Forall₂ (fun a c => ∃ b, R a b ∧ S b c) l1 l3 := by
  intro l1 l2 l3 h1 h2
  induction h1 generalizing l3 with
  | nil => cases h2; exact List.Forall₂.nil
  | cons hr _ ih =>
    cases h2 with
    | cons hs htail => exact List.Forall₂.cons ⟨_, hr, hs⟩ (ih htail)

/-- A successful enrichment relates each input partition to its output record
through the three per-partition pass bodies. -/
theorem enrich_ok_forall2 {cpc : CpcProps} {parts : List PartitionProps}
    {metrics : String → Option ℚ} {res : List EnrichedPartition}
    (h : cmd_partition_list_enrich cpc parts metrics = .ok res) :
    List.Forall₂
      (fun p e => ∃ s1 s2,
        iflPass cpc.processor_count_ifl (total_ifl_weight parts) p = .ok s1 ∧
        cpPass cpc.processor_count_general_purpose (total_cp_weight parts) s1 = .ok s2 ∧
        usagePass metrics s2 = .ok e)
      parts res := by
  unfold cmd_partition_list_enrich at h
  cases h1 : mapExcept (iflPass cpc.processor_count_ifl (total_ifl_weight parts)) parts with
  | error e => rw [h1] at h; simp at h
  | ok s1 =>
    rw [h1] at h
    dsimp only at h
    cases h2 : mapExcept (cpPass cpc.processor_count_general_purpose (total_cp_weight parts)) s1 with
    | error e => rw [h2] at h; simp at h
    | ok s2 =>
      rw [h2] at h
      dsimp only at h
      have f1 := mapExcept_forall2 _ h1
      have f2 := mapExcept_forall2 _ h2
      have f3 := mapExcept_forall2 _ h
      have c12 := forall2_comp f1 f2
      have c123 := forall2_comp c12 f3
      refine c123.imp ?_
      rintro p e ⟨s2x, ⟨s1x, hi, hc⟩, hu⟩
      exact ⟨s1x, s2x, hi, hc, hu⟩

theorem enrich_ok_get {cpc : CpcProps} {parts : List PartitionProps}
    {metrics : String → Option ℚ} {res : List EnrichedPartition}
    (h : cmd_partition_list_enrich cpc parts metrics = .ok res)
    (i : ℕ) (h1 : i < parts.length) (h2 : i < res.length) :
    ∃ s1 s2,
      iflPass cpc.processor_count_ifl (total_ifl_weight parts) (parts.get ⟨i, h1⟩) = .ok s1 ∧
      cpPass cpc.processor_count_general_purpose (total_cp_weight parts) s1 = .ok s2 ∧
      usagePass metrics s2 = .ok (res.get ⟨i, h2⟩) :=
  (enrich_ok_forall2 h).get h1 h2

/-! ## Lemmas: pass bodies -/

theorem iflPass_ok {t W : Int} {p : PartitionProps} {s : Stage1}
    (h : iflPass t W p = .ok s) :
    s.p = p ∧ ifls_eff t W p = .ok s.ifl_capacity ∧ s.ifls = p.ifl_processors ∧
      s.ifl_weight = p.initial_ifl_processing_weight := by
  unfold iflPass at h
  cases hc : ifls_eff t W p with
  | error e => rw [hc] at h; simp at h
  | ok c =>
    rw [hc] at h
    simp at h
    subst h
    exact ⟨rfl, rfl, rfl, rfl⟩

theorem cpPass_ok {t W : Int} {s1 : Stage1} {s : Stage2}
    (h : cpPass t W s1 = .ok s) :
    s.toStage1 = s1 ∧ cps_eff t W s1.p = .ok s.cp_capacity ∧ s.cps = s1.p.cp_processors ∧
      s.cp_weight = s1.p.initial_cp_processing_weight := by
  unfold cpPass at h
  cases hc : cps_eff t W s1.p with
  | error e => rw [hc] at h; simp at h
  | ok c =>
    rw [hc] at h
    simp at h
    subst h
    exact ⟨rfl, rfl, rfl, rfl⟩

theorem usagePass_ok {metrics : String → Option ℚ} {s : Stage2} {e : EnrichedPartition}
    (h : usagePass metrics s = .ok e) :
    e.toStage2 = s ∧
    (∀ u, metrics s.p.name = some u →
      ∃ a b, s.ifl_capacity = some a ∧ s.cp_capacity = some b ∧
        e.processor_usage = some u ∧ e.processors_used = some (u / 100 * (a + b))) ∧
    (metrics s.p.name = none → e.processor_usage = none ∧ e.processors_used = none) := by
  unfold usagePass at h
  cases hm : metrics s.p.name with
  | none =>
    rw [hm] at h
    simp at h
    subst h
    exact ⟨rfl, fun u hu => by simp at hu, fun _ => ⟨rfl, rfl⟩⟩
  | some u =>
    rw [hm] at h
    cases ha : s.ifl_capacity with
    | none => rw [ha] at h; simp at h
    | some a =>
      cases hb : s.cp_capacity with
      | none => rw [ha, hb] at h; simp at h
      | some b =>
        rw [ha, hb] at h
        simp at h
        subst h
        refine ⟨rfl, ?_, ?_⟩
        · intro u' hu'
          injection hu' with huu
          subst huu
          exact ⟨a, b, rfl, rfl, rfl, rfl⟩
        · intro hn
          simp at hn

theorem ifls_eff_shared {t W : Int} {p : PartitionProps} {c : Option ℚ}
    (hs : p.status = "active") (hm : p.processor_mode = "shared")
    (h : ifls_eff t W p = .ok c) :
    c = some ((t : ℚ) * (p.initial_ifl_processing_weight : ℚ) / (W : ℚ)) := by
  unfold ifls_eff at h
  rw [if_neg (by simp [hs]), if_pos hm] at h
  split at h
  · simp at h
  · injection h with h
    exact h.symm

theorem ifls_eff_dedicated {t W : Int} {p : PartitionProps} {c : Option ℚ}
    (hs : p.status = "active") (hm : p.processor_mode ≠ "shared")
    (h : ifls_eff t W p = .ok c) :
    c = some ((p.ifl_processors : ℚ)) := by
  unfold ifls_eff at h
  rw [if_neg (by simp [hs]), if_neg hm] at h
  injection h with h
  exact h.symm

theorem ifls_eff_inactive {t W : Int} {p : PartitionProps}
    (hs : p.status ≠ "active") : ifls_eff t W p = .ok none := by
  simp [ifls_eff, hs]

theorem cps_eff_shared {t W : Int} {p : PartitionProps} {c : Option ℚ}
    (hs : p.status = "active") (hm : p.processor_mode = "shared")
    (h : cps_eff t W p = .ok c) :
    c = some ((t : ℚ) * (p.initial_cp_processing_weight : ℚ) / (W : ℚ)) := by
  unfold cps_eff at h
  rw [if_neg (by simp [hs]), if_pos hm] at h
  split at h
  · simp at h
  · injection h with h
    exact h.symm

theorem cps_eff_dedicated {t W : Int} {p : PartitionProps} {c : Option ℚ}
    (hs : p.status = "active") (hm : p.processor_mode ≠ "shared")
    (h : cps_eff t W p = .ok c) :
    c = some ((p.cp_processors : ℚ)) := by
  unfold cps_eff at h
  rw [if_neg (by simp [hs]), if_neg hm] at h
  injection h with h
  exact h.symm

theorem cps_eff_inactive {t W : Int} {p : PartitionProps}
    (hs : p.status ≠ "active") : cps_eff t W p = .ok none := by
  simp [cps_eff, hs]

/-! ## Claim C1 -/

/-- Claim C1: in the list command capacity enrichment, for each processor
kind independently, an active shared-mode partition gets capacity
`total_processors_of_kind * weight / sum of weights of active shared
partitions of that kind`, and an active dedicated-mode partition gets its
configured processor count of that kind as a rational, regardless of
weight. -/
theorem c1_capacity_formula (cpc : CpcProps) (parts : List PartitionProps)
    (metrics : String → Option ℚ) (res : List EnrichedPartition)
    (h : cmd_partition_list_enrich cpc parts metrics = .ok res)
    (i : ℕ) (h1 : i < parts.length) (h2 : i < res.length) :
    ((parts.get ⟨i, h1⟩).status = "active" → (parts.get ⟨i, h1⟩).processor_mode = "shared" →
      (res.get ⟨i, h2⟩).ifl_capacity =
        some ((cpc.processor_count_ifl : ℚ) *
          ((parts.get ⟨i, h1⟩).initial_ifl_processing_weight : ℚ) /
          ((total_ifl_weight parts : Int) : ℚ)) ∧
      (res.get ⟨i, h2⟩).cp_capacity =
        some ((cpc.processor_count_general_purpose : ℚ) *
          ((parts.get ⟨i, h1⟩).initial_cp_processing_weight : ℚ) /
          ((total_cp_weight parts : Int) : ℚ))) ∧
    ((parts.get ⟨i, h1⟩).status = "active" → (parts.get ⟨i, h1⟩).processor_mode ≠ "shared" →
      (res.get ⟨i, h2⟩).ifl_capacity = some (((parts.get ⟨i, h1⟩).ifl_processors : ℚ)) ∧
      (res.get ⟨i, h2⟩).cp_capacity = some (((parts.get ⟨i, h1⟩).cp_processors : ℚ))) := by
  obtain ⟨s1, s2, hi, hc, hu⟩ := enrich_ok_get h i h1 h2
  obtain ⟨hp1, hie, _, _⟩ := iflPass_ok hi
  obtain ⟨hs21, hce, _, _⟩ := cpPass_ok hc
  obtain ⟨he2, _, _⟩ := usagePass_ok hu
  rw [hp1] at hce
  have heifl : (res.get ⟨i, h2⟩).ifl_capacity = s1.ifl_capacity := by rw [he2, hs21]
  have hecp : (res.get ⟨i, h2⟩).cp_capacity = s2.cp_capacity := by rw [he2]
  constructor
  · intro hact hsh
    exact ⟨heifl.trans (ifls_eff_shared hact hsh hie),
           hecp.trans (cps_eff_shared hact hsh hce)⟩
  · intro hact hsh
    exact ⟨heifl.trans (ifls_eff_dedicated hact hsh hie),
           hecp.trans (cps_eff_dedicated hact hsh hce)⟩

/-- CPC of the worked capacity example: 10 IFLs, 0 CPs. -/
def c1cpc : CpcProps := ⟨10, 0⟩

/-- Active shared partition with IFL weight 100. -/
def c1part1 : PartitionProps := ⟨"P1", "active", "shared", 2, 0, 100, 100⟩

/-- Active shared partition with IFL weight 300. -/
def c1part2 : PartitionProps := ⟨"P2", "active", "shared", 6, 0, 300, 300⟩

/-- Active dedicated partition with 4 IFL processors. -/
def c1part3 : PartitionProps := ⟨"P3", "active", "dedicated", 4, 0, 100, 100⟩

/-- The partition list of the worked capacity example. -/
def c1parts : List PartitionProps := [c1part1, c1part2, c1part3]

/-- Expected enrichment output of the worked capacity example. -/
def c1res : List EnrichedPartition :=
  [⟨⟨⟨c1part1, some (5/2), 2, 100⟩, some 0, 0, 100⟩, none, none⟩,
   ⟨⟨⟨c1part2, some (15/2), 6, 300⟩, some 0, 0, 300⟩, none, none⟩,
   ⟨⟨⟨c1part3, some 4, 4, 100⟩, some 0, 0, 100⟩, none, none⟩]

theorem str_dedicated_ne_shared : ("dedicated" : String) ≠ ("shared") := by decide

theorem c1_capacity_formula_witness :
    (c1res.get ⟨0, by decide⟩).ifl_capacity = some (5/2) ∧
    (c1res.get ⟨1, by decide⟩).ifl_capacity = some (15/2) ∧
    (c1res.get ⟨2, by decide⟩).ifl_capacity = some 4 := by
  have hEx : cmd_partition_list_enrich c1cpc c1parts (fun _ => none) = .ok c1res := by
    norm_num [cmd_partition_list_enrich, mapExcept, iflPass, cpPass, usagePass, ifls_eff,
      cps_eff, total_ifl_weight, total_cp_weight, c1cpc, c1parts, c1part1, c1part2, c1part3,
      c1res, str_dedicated_ne_shared]
  refine ⟨?_, ?_, ?_⟩
  · have h := (c1_capacity_formula c1cpc c1parts (fun _ => none) c1res hEx 0
      (by decide) (by decide)).1 rfl rfl
    exact h.1.trans (by norm_num [c1cpc, c1parts, c1part1, c1part2, c1part3, total_ifl_weight,
      str_dedicated_ne_shared])
  · have h := (c1_capacity_formula c1cpc c1parts (fun _ => none) c1res hEx 1
      (by decide) (by decide)).1 rfl rfl
    exact h.1.trans (by norm_num [c1cpc, c1parts, c1part1, c1part2, c1part3, total_ifl_weight,
      str_dedicated_ne_shared])
  · have h := (c1_capacity_formula c1cpc c1parts (fun _ => none) c1res hEx 2
      (by decide) (by decide)).2 rfl (by decide)
    exact h.1.trans (by norm_num [c1parts, c1part3])

/-! ## Claim C3 -/

/-- CPC used for the division-by-zero input: 10 IFLs, 0 CPs. -/
def c3cpc : CpcProps := ⟨10, 0⟩

/-- An active shared-mode partition whose IFL weight is 0, making the sum of
IFL weights of active shared partitions zero. -/
def c3part : PartitionProps := ⟨"ZW", "active", "shared", 2, 0, 0, 100⟩

/-- Claim C3: the claim requires the capacity computation not to divide by
zero when the weight sum of a kind is zero while some partition is active and
shared for that kind, treating that capacity as `None` or a reported error
instead.  The code has no such guard: on this input
(`processor-count-ifl = 10`, a single active shared partition with
`initial-ifl-processing-weight = 0`) the IFL pass evaluates
`float(10) * 0 / 0` and the command dies with an unhandled
`ZeroDivisionError`, the partition capacity is never set to `None`. -/
theorem c3_zero_weight_division_crash :
    cmd_partition_list_enrich c3cpc [c3part] (fun _ => none) =
      .error ("ZeroDivisionError") := by
  rfl

/-! ## Claim C5 -/

/-- Claim C5: in the enrichment, a partition with a usage metric sample `u`
gets `processor-usage = u` and
`processors-used = u / 100 * (ifl-capacity + cp-capacity)`, summing both
capacity kinds regardless of processor mode; a partition without a sample
gets `None` for both. -/
theorem c5_processors_used (cpc : CpcProps) (parts : List PartitionProps)
    (metrics : String → Option ℚ) (res : List EnrichedPartition)
    (h : cmd_partition_list_enrich cpc parts metrics = .ok res)
    (i : ℕ) (h1 : i < parts.length) (h2 : i < res.length) :
    (∀ u, metrics (parts.get ⟨i, h1⟩).name = some u →
      ∃ a b, (res.get ⟨i, h2⟩).ifl_capacity = some a ∧
        (res.get ⟨i, h2⟩).cp_capacity = some b ∧
        (res.get ⟨i, h2⟩).processor_usage = some u ∧
        (res.get ⟨i, h2⟩).processors_used = some (u / 100 * (a + b))) ∧
    (metrics (parts.get ⟨i, h1⟩).name = none →
      (res.get ⟨i, h2⟩).processor_usage = none ∧
      (res.get ⟨i, h2⟩).processors_used = none) := by
  obtain ⟨s1, s2, hi, hc, hu⟩ := enrich_ok_get h i h1 h2
  obtain ⟨hp1, _, _, _⟩ := iflPass_ok hi
  obtain ⟨hs21, _, _, _⟩ := cpPass_ok hc
  obtain ⟨he2, hsome, hnone⟩ := usagePass_ok hu
  have hname : s2.p.name = (parts.get ⟨i, h1⟩).name := by rw [hs21, hp1]
  rw [hname] at hsome hnone
  constructor
  · intro u hu2
    obtain ⟨a, b, ha, hb, hus, hused⟩ := hsome u hu2
    refine ⟨a, b, ?_, ?_, hus, hused⟩
    · rw [he2]; exact ha
    · rw [he2]; exact hb
  · intro hn
    exact hnone hn

/-- CPC of the usage example: 10 IFLs, 0 CPs. -/
def c5cpc : CpcProps := ⟨10, 0⟩

/-- Single active shared partition of the usage example. -/
def c5part : PartitionProps := ⟨"P1", "active", "shared", 2, 0, 100, 100⟩

/-- Metrics of the usage example: every partition reports 50 percent usage. -/
def c5metrics : String → Option ℚ := fun _ => some 50

/-- Expected enrichment output of the usage example: `ifl-capacity = 10`,
`cp-capacity = 0`, `processors-used = 50 / 100 * 10 = 5`. -/
def c5res : List EnrichedPartition :=
  [⟨⟨⟨c5part, some 10, 2, 100⟩, some 0, 0, 100⟩, some 50, some 5⟩]

theorem c5_processors_used_witness :
    (∃ a b, (c5res.get ⟨0, by decide⟩).ifl_capacity = some a ∧
      (c5res.get ⟨0, by decide⟩).cp_capacity = some b ∧
      (c5res.get ⟨0, by decide⟩).processor_usage = some 50 ∧
      (c5res.get ⟨0, by decide⟩).processors_used = some (50 / 100 * (a + b))) ∧
    (c5res.get ⟨0, by decide⟩).processors_used = some 5 := by
  have hEx : cmd_partition_list_enrich c5cpc [c5part] c5metrics = .ok c5res := by
    norm_num [cmd_partition_list_enrich, mapExcept, iflPass, cpPass, usagePass, ifls_eff,
      cps_eff, total_ifl_weight, total_cp_weight, c5cpc, c5part, c5metrics, c5res]
  refine ⟨(c5_processors_used c5cpc [c5part] c5metrics c5res hEx 0
    (by decide) (by decide)).1 50 rfl, ?_⟩
  norm_num [c5res]

/-! ## Claim C6 -/

/-- Claim C6: a partition whose status is not `active` gets
`ifl-capacity = None` and `cp-capacity = None`, and when it additionally has
no usage sample (as a stopped partition does) it also gets
`processor-usage = None` and `processors-used = None`. -/
theorem c6_inactive_capacity_none (cpc : CpcProps) (parts : List PartitionProps)
    (metrics : String → Option ℚ) (res : List EnrichedPartition)
    (h : cmd_partition_list_enrich cpc parts metrics = .ok res)
    (i : ℕ) (h1 : i < parts.length) (h2 : i < res.length) :
    ((parts.get ⟨i, h1⟩).status ≠ "active" →
      (res.get ⟨i, h2⟩).ifl_capacity = none ∧ (res.get ⟨i, h2⟩).cp_capacity = none) ∧
    ((parts.get ⟨i, h1⟩).status ≠ "active" → metrics (parts.get ⟨i, h1⟩).name = none →
      (res.get ⟨i, h2⟩).processor_usage = none ∧
      (res.get ⟨i, h2⟩).processors_used = none) := by
  obtain ⟨s1, s2, hi, hc, hu⟩ := enrich_ok_get h i h1 h2
  obtain ⟨hp1, hie, _, _⟩ := iflPass_ok hi
  obtain ⟨hs21, hce, _, _⟩ := cpPass_ok hc
  obtain ⟨he2, _, hnone⟩ := usagePass_ok hu
  rw [hp1] at hce
  have hname : s2.p.name = (parts.get ⟨i, h1⟩).name := by rw [hs21, hp1]
  rw [hname] at hnone
  have heifl : (res.get ⟨i, h2⟩).ifl_capacity = s1.ifl_capacity := by rw [he2, hs21]
  have hecp : (res.get ⟨i, h2⟩).cp_capacity = s2.cp_capacity := by rw [he2]
  constructor
  · intro hina
    have hif := (ifls_eff_inactive (t := cpc.processor_count_ifl)
      (W := total_ifl_weight parts) hina).symm.trans hie
    have hcf := (cps_eff_inactive (t := cpc.processor_count_general_purpose)
      (W := total_cp_weight parts) hina).symm.trans hce
    injection hif with hif
    injection hcf with hcf
    exact ⟨heifl.trans hif.symm, hecp.trans hcf.symm⟩
  · intro _ hn
    exact hnone hn

/-- CPC of the stopped-partition example. -/
def c6cpc : CpcProps := ⟨10, 0⟩

/-- A stopped partition. -/
def c6part : PartitionProps := ⟨"P1", "stopped", "shared", 2, 0, 100, 100⟩

/-- Expected enrichment output for the stopped partition: every computed
field is `None`. -/
def c6res : List EnrichedPartition :=
  [⟨⟨⟨c6part, none, 2, 100⟩, none, 0, 100⟩, none, none⟩]

theorem c6_inactive_capacity_none_witness :
    ((c6res.get ⟨0, by decide⟩).ifl_capacity = none ∧
      (c6res.get ⟨0, by decide⟩).cp_capacity = none) ∧
    ((c6res.get ⟨0, by decide⟩).processor_usage = none ∧
      (c6res.get ⟨0, by decide⟩).processors_used = none) := by
  have hEx : cmd_partition_list_enrich c6cpc [c6part] (fun _ => none) = .ok c6res := by
    rfl
  have h := c6_inactive_capacity_none c6cpc [c6part] (fun _ => none) c6res hEx 0
    (by decide) (by decide)
  exact ⟨h.1 (by decide), h.2 (by decide) rfl⟩

/-! ## Lemmas: property sets -/

theorem getProp_cons (k1 : String) (v1 : PropVal) (rest : PropSet) (k : String) :
    getProp ((k1, v1) :: rest) k = if k1 = k then some v1 else getProp rest k := rfl

theorem getProp_append_left {l1 l2 : PropSet} {k : String} {v : PropVal}
    (h : getProp l1 k = some v) : getProp (l1 ++ l2) k = some v := by
  induction l1 with
  | nil => simp [getProp] at h
  | cons e rest ih =>
    obtain ⟨k1, v1⟩ := e
    rw [List.cons_append, getProp_cons]
    rw [getProp_cons] at h
    by_cases hk : k1 = k
    · rw [if_pos hk] at h ⊢
      exact h
    · rw [if_neg hk] at h ⊢
      exact ih h

theorem getProp_append_right {l1 l2 : PropSet} {k : String}
    (h : getProp l1 k = none) : getProp (l1 ++ l2) k = getProp l2 k := by
  induction l1 with
  | nil => simp
  | cons e rest ih =>
    obtain ⟨k1, v1⟩ := e
    rw [List.cons_append, getProp_cons]
    rw [getProp_cons] at h
    by_cases hk : k1 = k
    · rw [if_pos hk] at h
      simp at h
    · rw [if_neg hk] at h ⊢
      exact ih h

theorem getProp_filter_ne_key (ps : PropSet) (k : String) :
    getProp (ps.filter (fun e => e.1 != k)) k = none := by
  induction ps with
  | nil => simp [getProp]
  | cons e rest ih =>
    obtain ⟨k1, v1⟩ := e
    rw [List.filter_cons]
    by_cases hk : k1 = k
    · rw [if_neg (by simp [hk])]
      exact ih
    · rw [if_pos (by simp [hk]), getProp_cons, if_neg hk]
      exact ih

theorem getProp_filter_other (ps : PropSet) {k k2 : String} (h : k2 ≠ k) :
    getProp (ps.filter (fun e => e.1 != k)) k2 = getProp ps k2 := by
  induction ps with
  | nil => simp
  | cons e rest ih =>
    obtain ⟨k1, v1⟩ := e
    rw [List.filter_cons]
    by_cases hk : k1 = k
    · have hk2 : ¬ k1 = k2 := by
        rw [hk]
        exact fun he => h he.symm
      rw [if_neg (by simp [hk]), getProp_cons, if_neg hk2]
      exact ih
    · rw [if_pos (by simp [hk])]
      by_cases hk2 : k1 = k2
      · rw [getProp_cons, getProp_cons, if_pos hk2, if_pos hk2]
      · rw [getProp_cons, getProp_cons, if_neg hk2, if_neg hk2]
        exact ih

theorem getProp_setProp_same (ps : PropSet) (k : String) (v : PropVal) :
    getProp (setProp ps k v) k = some v := by
  unfold setProp
  rw [getProp_append_right (getProp_filter_ne_key ps k)]
  simp [getProp]

theorem getProp_setProp_ne (ps : PropSet) {k k2 : String} (v : PropVal) (h : k2 ≠ k) :
    getProp (setProp ps k v) k2 = getProp ps k2 := by
  unfold setProp
  cases hgp : getProp (ps.filter (fun e => e.1 != k)) k2 with
  | some w =>
    rw [getProp_append_left hgp, ← getProp_filter_other ps h, hgp]
  | none =>
    rw [getProp_append_right hgp, ← getProp_filter_other ps h, hgp]
    have hne : ¬ k = k2 := fun he => h he.symm
    simp [getProp, hne]

theorem hasProp_eq_isSome (ps : PropSet) (k : String) :
    hasProp ps k = (getProp ps k).isSome := by
  induction ps with
  | nil => simp [hasProp, getProp]
  | cons e rest ih =>
    obtain ⟨k1, v1⟩ := e
    by_cases hk : k1 = k
    · simp [hasProp, getProp, hk]
    · simpa [hasProp, getProp, hk] using ih

theorem getProp_eq_none_of_hasProp_false {ps : PropSet} {k : String}
    (h : hasProp ps k = false) : getProp ps k = none := by
  have he := hasProp_eq_isSome ps k
  rw [h] at he
  cases hgp : getProp ps k
  · rfl
  · rw [hgp] at he
    simp at he

theorem hasProp_setProp_same (ps : PropSet) (k : String) (v : PropVal) :
    hasProp (setProp ps k v) k = true := by
  rw [hasProp_eq_isSome, getProp_setProp_same]
  rfl

theorem hasProp_setProp_ne (ps : PropSet) {k k2 : String} (v : PropVal) (h : k2 ≠ k) :
    hasProp (setProp ps k v) k2 = hasProp ps k2 := by
  rw [hasProp_eq_isSome, getProp_setProp_ne _ _ h, hasProp_eq_isSome]

theorem applyDnsSplit_getProp_dns (s : String) (ps : PropSet) :
    getProp (applyDnsSplit (some s) ps) ("ssc-dns-servers") =
      some (PropVal.strList (splitComma s)) := by
  simp [applyDnsSplit, getProp_setProp_same]

theorem applyDnsSplit_getProp_ne (dns : Option String) (ps : PropSet) {k : String}
    (h : k ≠ ("ssc-dns-servers")) :
    getProp (applyDnsSplit dns ps) k = getProp ps k := by
  cases dns
  · rfl
  · exact getProp_setProp_ne _ _ h

/-! ## Claim C7 -/

/-- Claim C7: the unmount-iso command with no mounted ISO (falsy
`boot-iso-image-name`) issues no operation and echoes a success message; with
a mounted ISO and `boot-device = iso-image` it first resets `boot-device` to
`none` and then unmounts; with a mounted ISO and any other `boot-device` it
unmounts without touching `boot-device`. -/
theorem c7_unmount_iso (partition_name : String) (image : Option String)
    (boot_device : String) :
    (truthy image = false →
      cmd_partition_unmount_iso partition_name image boot_device =
        ([], noIsoMsg partition_name)) ∧
    (truthy image = true → boot_device = "iso-image" →
      (cmd_partition_unmount_iso partition_name image boot_device).1 =
        [PartOp.updateProps [(("boot-device"), PropVal.str ("none"))],
         PartOp.unmountIsoImage]) ∧
    (truthy image = true → boot_device ≠ "iso-image" →
      (cmd_partition_unmount_iso partition_name image boot_device).1 =
        [PartOp.unmountIsoImage]) := by
  refine ⟨?_, ?_, ?_⟩
  · intro h1
    simp [cmd_partition_unmount_iso, h1]
  · intro h1 h2
    simp [cmd_partition_unmount_iso, h1, h2]
  · intro h1 h2
    simp [cmd_partition_unmount_iso, h1, h2]

theorem c7_unmount_iso_witness :
    cmd_partition_unmount_iso ("PART1") none ("none") = ([], noIsoMsg ("PART1")) ∧
    (cmd_partition_unmount_iso ("PART1") (some ("fedora.iso")) ("iso-image")).1 =
      [PartOp.updateProps [(("boot-device"), PropVal.str ("none"))],
       PartOp.unmountIsoImage] ∧
    (cmd_partition_unmount_iso ("PART1") (some ("fedora.iso")) ("ftp")).1 =
      [PartOp.unmountIsoImage] :=
  ⟨(c7_unmount_iso ("PART1") none ("none")).1 rfl,
   (c7_unmount_iso ("PART1") (some ("fedora.iso")) ("iso-image")).2.1 (by decide) rfl,
   (c7_unmount_iso ("PART1") (some ("fedora.iso")) ("ftp")).2.2 (by decide) (by decide)⟩

/-! ## Claim C8 -/

/-- Claim C8: when the resolved property set of the update command is empty,
the command reports that there is nothing to update and issues no update
request (outcome `noop`, not `updated`). -/
theorem c8_empty_update_noop (hbaFind nicFind : String → Option String)
    (cpc_name partition_name : String) (genProps : PropSet) (o : UpdateOptions)
    (h : resolvedUpdateProps hbaFind nicFind cpc_name partition_name genProps o = .ok []) :
    cmd_partition_update hbaFind nicFind cpc_name partition_name genProps o =
      .noop (noPropsMsg partition_name) := by
  unfold cmd_partition_update
  rw [h]
  dsimp only
  rw [if_pos rfl]

theorem c8_empty_update_noop_witness :
    cmd_partition_update (fun _ => none) (fun _ => none) ("CPC1") ("PART1") [] {} =
      .noop (noPropsMsg ("PART1")) :=
  c8_empty_update_noop (fun _ => none) (fun _ => none) ("CPC1") ("PART1") [] {} (by rfl)

/-! ## Claim C2 -/

/-- Claim C2: the update boot resolver evaluates the option groups in the
fixed priority order FCP storage > network > FTP > removable media > ISO; the
first group with a supplied member wins, and the resulting boot property
overlay consists of exactly the winning group's `boot-device` value and
device-specific fields, with all lower-priority groups' values ignored. -/
theorem c2_boot_priority (hbaFind nicFind : String → Option String)
    (cpc_name partition_name : String) (o : UpdateOptions) (uri nuri : String) :
    (storageSupplied o = true → storageMissing o = [] →
      hbaFind (o.boot_storage_hba.getD ("")) = some uri →
      resolveUpdateBoot hbaFind nicFind cpc_name partition_name o =
        .ok [(("boot-device"), PropVal.str ("storage-adapter")),
             (("boot-storage-device"), PropVal.str uri),
             (("boot-logical-unit-number"), PropVal.str (o.boot_storage_lun.getD (""))),
             (("boot-world-wide-port-name"), PropVal.str (o.boot_storage_wwpn.getD ("")))]) ∧
    (storageSupplied o = false → o.boot_network_nic.isSome = true →
      nicFind (o.boot_network_nic.getD ("")) = some nuri →
      resolveUpdateBoot hbaFind nicFind cpc_name partition_name o =
        .ok [(("boot-device"), PropVal.str ("network-adapter")),
             (("boot-network-device"), PropVal.str nuri)]) ∧
    (storageSupplied o = false → o.boot_network_nic = none → ftpSuppliedUpdate o = true →
      ftpMissingUpdate o = [] →
      resolveUpdateBoot hbaFind nicFind cpc_name partition_name o =
        .ok [(("boot-device"), PropVal.str ("ftp")),
             (("boot-ftp-host"), PropVal.str (o.boot_ftp_host.getD (""))),
             (("boot-ftp-username"), PropVal.str (o.boot_ftp_username.getD (""))),
             (("boot-ftp-password"), PropVal.str (o.boot_ftp_password.getD (""))),
             (("boot-ftp-insfile"), PropVal.str (o.boot_ftp_insfile.getD ("")))]) ∧
    (storageSupplied o = false → o.boot_network_nic = none → ftpSuppliedUpdate o = false →
      o.boot_media_file.isSome = true →
      resolveUpdateBoot hbaFind nicFind cpc_name partition_name o =
        .ok [(("boot-device"), PropVal.str ("removable-media")),
             (("boot-removable-media"), PropVal.str (o.boot_media_file.getD ("")))]) ∧
    (storageSupplied o = false → o.boot_network_nic = none → ftpSuppliedUpdate o = false →
      o.boot_media_file = none → o.boot_iso.isSome = true →
      resolveUpdateBoot hbaFind nicFind cpc_name partition_name o =
        .ok [(("boot-device"), PropVal.str ("iso-image"))]) ∧
    (storageSupplied o = false → o.boot_network_nic = none → ftpSuppliedUpdate o = false →
      o.boot_media_file = none → o.boot_iso = none →
      resolveUpdateBoot hbaFind nicFind cpc_name partition_name o = .ok []) := by
  refine ⟨?_, ?_, ?_, ?_, ?_, ?_⟩
  · intro h1 h2 h3
    unfold resolveUpdateBoot
    rw [if_pos h1, if_neg (by simp [h2]), h3]
  · intro h1 h2 h3
    unfold resolveUpdateBoot
    rw [if_neg (by simp [h1]), if_pos h2, h3]
  · intro h1 h2 h3 h4
    unfold resolveUpdateBoot
    rw [if_neg (by simp [h1]), if_neg (by simp [h2]), if_pos h3, if_neg (by simp [h4])]
  · intro h1 h2 h3 h4
    unfold resolveUpdateBoot
    rw [if_neg (by simp [h1]), if_neg (by simp [h2]), if_neg (by simp [h3]), if_pos h4]
  · intro h1 h2 h3 h4 h5
    unfold resolveUpdateBoot
    rw [if_neg (by simp [h1]), if_neg (by simp [h2]), if_neg (by simp [h3]),
      if_neg (by simp [h4]), if_pos h5]
  · intro h1 h2 h3 h4 h5
    unfold resolveUpdateBoot
    rw [if_neg (by simp [h1]), if_neg (by simp [h2]), if_neg (by simp [h3]),
      if_neg (by simp [h4]), if_neg (by simp [h5])]

/-- Update options supplying every boot group at once. -/
def c2opts : UpdateOptions :=
  { boot_storage_hba := some ("HBA1"),
    boot_storage_lun := some ("17"),
    boot_storage_wwpn := some ("5005076300C39B1E"),
    boot_network_nic := some ("NIC1"),
    boot_ftp_host := some ("ftp.example.com"),
    boot_ftp_username := some ("user"),
    boot_ftp_password := some ("pw"),
    boot_ftp_insfile := some ("os.ins"),
    boot_media_file := some ("image.iso"),
    boot_iso := some ("mounted.iso") }

/-- HBA finder of the priority example. -/
def c2hbaFind : String → Option String :=
  fun n => if n = "HBA1" then some ("/api/partitions/1/hbas/1") else none

/-- NIC finder of the priority example (never consulted). -/
def c2nicFind : String → Option String := fun _ => none

theorem c2_boot_priority_witness :
    resolveUpdateBoot c2hbaFind c2nicFind ("CPC1") ("PART1") c2opts =
      .ok [(("boot-device"), PropVal.str ("storage-adapter")),
           (("boot-storage-device"), PropVal.str ("/api/partitions/1/hbas/1")),
           (("boot-logical-unit-number"), PropVal.str ("17")),
           (("boot-world-wide-port-name"), PropVal.str ("5005076300C39B1E"))] :=
  (c2_boot_priority c2hbaFind c2nicFind ("CPC1") ("PART1") c2opts
    ("/api/partitions/1/hbas/1") ("")).1 (by decide) (by decide) (by rfl)

/-! ## Claim C4 -/

/-- Claim C4: when a matched multi-member boot group (create FTP, update FCP
storage, update FTP) lacks at least one required member, the command fails
with a user-input error whose message lists exactly the missing option names
(in the group's fixed order), and no create or update request is issued to
the management client (`Except.error` / `UpdateOutcome.err` outcomes model
`raise_click_exception` before any request). -/
theorem c4_incomplete_boot_group (o : CreateOptions) (ou : UpdateOptions)
    (hbaFind nicFind : String → Option String) (cpc_name partition_name : String)
    (genProps : PropSet) :
    (ftpSuppliedCreate o = true → ftpMissingCreate o ≠ [] →
      cmd_partition_create o = .error (missingFtpMsg (ftpMissingCreate o))) ∧
    (storageSupplied ou = true → storageMissing ou ≠ [] →
      cmd_partition_update hbaFind nicFind cpc_name partition_name genProps ou =
        .err (missingStorageMsg (storageMissing ou))) ∧
    (storageSupplied ou = false → ou.boot_network_nic = none → ftpSuppliedUpdate ou = true →
      ftpMissingUpdate ou ≠ [] →
      cmd_partition_update hbaFind nicFind cpc_name partition_name genProps ou =
        .err (missingFtpMsg (ftpMissingUpdate ou))) := by
  refine ⟨?_, ?_, ?_⟩
  · intro h1 h2
    unfold cmd_partition_create createBootProps
    rw [if_pos h1, if_pos h2]
  · intro h1 h2
    unfold cmd_partition_update resolvedUpdateProps resolveUpdateBoot
    rw [if_pos h1, if_pos h2]
  · intro h1 h2 h3 h4
    unfold cmd_partition_update resolvedUpdateProps resolveUpdateBoot
    rw [if_neg (by simp [h1]), if_neg (by simp [h2]), if_pos h3, if_pos h4]

/-- Create options supplying only the FTP host: username, password and
INS-file are missing. -/
def c4copts : CreateOptions := { boot_ftp_host := some ("ftp.example.com") }

/-- Update options supplying only the FCP LUN: HBA and WWPN are missing. -/
def c4uopts : UpdateOptions := { boot_storage_lun := some ("17") }

theorem c4_incomplete_boot_group_witness :
    cmd_partition_create c4copts =
      .error (missingFtpMsg (["boot-ftp-username", "boot-ftp-password", "boot-ftp-insfile"])) ∧
    cmd_partition_update (fun _ => none) (fun _ => none) ("CPC1") ("PART1") [] c4uopts =
      .err (missingStorageMsg (["boot-storage-hba", "boot-storage-wwpn"])) := by
  have h := c4_incomplete_boot_group c4copts c4uopts (fun _ => none) (fun _ => none)
    ("CPC1") ("PART1") []
  exact ⟨h.1 (by decide) (by decide), h.2.1 (by decide) (by decide)⟩

/-! ## Claim C9 -/

/-- Claim C9: when the `ssc-dns-servers` option is supplied to create or
update, the resulting property set maps `ssc-dns-servers` to the ordered
list obtained by splitting the option value at commas. -/
theorem c9_dns_servers_split (o : CreateOptions) (ou : UpdateOptions)
    (hbaFind nicFind : String → Option String) (cpc_name partition_name : String)
    (genProps : PropSet) (s su : String) (propsC propsU : PropSet) :
    (o.ssc_dns_servers = some s → cmd_partition_create o = .ok propsC →
      getProp propsC ("ssc-dns-servers") = some (PropVal.strList (splitComma s))) ∧
    (ou.ssc_dns_servers = some su →
      resolvedUpdateProps hbaFind nicFind cpc_name partition_name genProps ou = .ok propsU →
      getProp propsU ("ssc-dns-servers") = some (PropVal.strList (splitComma su))) := by
  constructor
  · intro hd h
    unfold cmd_partition_create at h
    cases hb : createBootProps o with
    | error m => rw [hb] at h; simp at h
    | ok ps =>
      rw [hb] at h
      dsimp only at h
      injection h with h2
      rw [← h2, hd]
      exact applyDnsSplit_getProp_dns _ _
  · intro hd h
    unfold resolvedUpdateProps at h
    cases hb : resolveUpdateBoot hbaFind nicFind cpc_name partition_name ou with
    | error m => rw [hb] at h; simp at h
    | ok overlay =>
      rw [hb] at h
      dsimp only at h
      injection h with h2
      rw [← h2, hd]
      exact applyDnsSplit_getProp_dns _ _

/-- Create options supplying only two DNS servers. -/
def c9opts : CreateOptions := { ssc_dns_servers := some ("1.2.3.4,5.6.7.8") }

/-- The property set the create command sends for `c9opts`. -/
def c9props : PropSet :=
  [(("ifl-processors"), PropVal.int 1),
   (("ssc-dns-servers"), PropVal.strList (["1.2.3.4", "5.6.7.8"]))]

theorem c9_dns_servers_split_witness :
    cmd_partition_create c9opts = .ok c9props ∧
    getProp c9props ("ssc-dns-servers") =
      some (PropVal.strList (splitComma ("1.2.3.4,5.6.7.8"))) := by
  constructor
  · rfl
  · exact (c9_dns_servers_split c9opts {} (fun _ => none) (fun _ => none) ("CPC1") ("PART1")
      [] ("1.2.3.4,5.6.7.8") ("") c9props []).1 rfl (by rfl)

/-! ## Claim C10 -/

theorem mapped_getProp_ifl (o : CreateOptions)
    (hwf : hasProp o.others ("ifl-processors") = false) :
    getProp (createMappedProps o) ("ifl-processors") = o.ifl_processors.map PropVal.int := by
  have hnone := getProp_eq_none_of_hasProp_false hwf
  unfold createMappedProps applyOptIfl applyOptCp applyOptDnsRaw
  cases o.ifl_processors with
  | some n =>
    cases o.cp_processors <;> cases o.ssc_dns_servers <;> simp [getProp_setProp_same]
  | none =>
    cases o.cp_processors <;> cases o.ssc_dns_servers <;> simp [getProp_setProp_ne, hnone]

theorem mapped_hasProp_ifl (o : CreateOptions)
    (hwf : hasProp o.others ("ifl-processors") = false) :
    hasProp (createMappedProps o) ("ifl-processors") = o.ifl_processors.isSome := by
  unfold createMappedProps applyOptIfl applyOptCp applyOptDnsRaw
  cases o.ifl_processors with
  | some n =>
    cases o.cp_processors <;> cases o.ssc_dns_servers <;> simp [hasProp_setProp_same]
  | none =>
    cases o.cp_processors <;> cases o.ssc_dns_servers <;> simp [hasProp_setProp_ne, hwf]

theorem mapped_hasProp_cp (o : CreateOptions)
    (hwf : hasProp o.others ("cp-processors") = false) :
    hasProp (createMappedProps o) ("cp-processors") = o.cp_processors.isSome := by
  unfold createMappedProps applyOptIfl applyOptCp applyOptDnsRaw
  cases o.cp_processors with
  | some n =>
    cases o.ifl_processors <;> cases o.ssc_dns_servers <;>
      simp [hasProp_setProp_same, hasProp_setProp_ne]
  | none =>
    cases o.ifl_processors <;> cases o.ssc_dns_servers <;> simp [hasProp_setProp_ne, hwf]

/-- The boot overlay of the create command never touches the
`ifl-processors` and `cp-processors` keys. -/
theorem createBootProps_ifl_cp (o : CreateOptions) {ps : PropSet}
    (h : createBootProps o = .ok ps) :
    getProp ps ("ifl-processors") = getProp (createMappedProps o) ("ifl-processors") ∧
    hasProp ps ("ifl-processors") = hasProp (createMappedProps o) ("ifl-processors") ∧
    hasProp ps ("cp-processors") = hasProp (createMappedProps o) ("cp-processors") := by
  unfold createBootProps at h
  split at h
  · split at h
    · simp at h
    · injection h with h2
      rw [← h2]
      simp [mergeProps, getProp_setProp_ne, hasProp_setProp_ne]
  · split at h
    · injection h with h2
      rw [← h2]
      simp [mergeProps, getProp_setProp_ne, hasProp_setProp_ne]
    · injection h with h2
      rw [← h2]
      exact ⟨rfl, rfl, rfl⟩

/-- Claim C10: when neither `ifl-processors` nor `cp-processors` is supplied
to the create command, the property set sent to the management client gets
`ifl-processors = 1`; when either is supplied, no default is injected and
`ifl-processors` is exactly the supplied value (absent when only
`cp-processors` was supplied).  `o.others` stands for the generically mapped
remaining options, which never produce these two keys. -/
theorem c10_default_ifl_processors (o : CreateOptions) (props : PropSet)
    (hwf1 : hasProp o.others ("ifl-processors") = false)
    (hwf2 : hasProp o.others ("cp-processors") = false)
    (h : cmd_partition_create o = .ok props) :
    (o.ifl_processors = none → o.cp_processors = none →
      getProp props ("ifl-processors") = some (PropVal.int 1)) ∧
    (o.ifl_processors.isSome = true ∨ o.cp_processors.isSome = true →
      getProp props ("ifl-processors") = o.ifl_processors.map PropVal.int) := by
  unfold cmd_partition_create at h
  cases hb : createBootProps o with
  | error m => rw [hb] at h; simp at h
  | ok ps =>
    rw [hb] at h
    dsimp only at h
    injection h with h2
    obtain ⟨hg, hhi, hhc⟩ := createBootProps_ifl_cp o hb
    constructor
    · intro hifl hcp
      have hhi2 : hasProp ps ("ifl-processors") = false := by
        rw [hhi, mapped_hasProp_ifl o hwf1, hifl]
        rfl
      have hhc2 : hasProp ps ("cp-processors") = false := by
        rw [hhc, mapped_hasProp_cp o hwf2, hcp]
        rfl
      rw [← h2, applyDnsSplit_getProp_ne _ _ (by simp)]
      unfold createDefaultIfl
      rw [if_pos ⟨hhi2, hhc2⟩]
      exact getProp_setProp_same _ _ _
    · intro hor
      have hcond : ¬(hasProp ps ("ifl-processors") = false ∧
          hasProp ps ("cp-processors") = false) := by
        rw [hhi, hhc, mapped_hasProp_ifl o hwf1, mapped_hasProp_cp o hwf2]
        rcases hor with h3 | h3 <;> rw [h3] <;> simp
      rw [← h2, applyDnsSplit_getProp_ne _ _ (by simp)]
      unfold createDefaultIfl
      rw [if_neg hcond, hg, mapped_getProp_ifl o hwf1]

/-- The property set sent for a create with neither processor option. -/
def c10props : PropSet := [(("ifl-processors"), PropVal.int 1)]

/-- The property set sent for a create with only `cp-processors = 3`. -/
def c10propsCp : PropSet := [(("cp-processors"), PropVal.int 3)]

theorem c10_default_ifl_processors_witness :
    cmd_partition_create ({} : CreateOptions) = .ok c10props ∧
    getProp c10props ("ifl-processors") = some (PropVal.int 1) ∧
    cmd_partition_create ({ cp_processors := some 3 } : CreateOptions) = .ok c10propsCp ∧
    getProp c10propsCp ("ifl-processors") = none := by
  refine ⟨by rfl, ?_, by rfl, ?_⟩
  · exact (c10_default_ifl_processors {} c10props rfl rfl (by rfl)).1 rfl rfl
  · exact (c10_default_ifl_processors ({ cp_processors := some 3 } : CreateOptions) c10propsCp
      rfl rfl (by rfl)).2 (Or.inr rfl)

end Zhmccli
